import Mathlib

/- Verification of the `DSystem` adapter (dsystem.py): a wrapper that presents a
   trep variational integrator as a discrete control system
     X[k+1] = f(X[k], U[k], k),   X = [Q ; p ; v],   U = [u ; rho],
   with v the finite-difference velocity of the kinematic configurations.
   Vectors are modelled as `List ℚ` (numpy 1-D arrays), trajectories as
   `List (List ℚ)` (rows), and the Jacobian/Hessian blocks as functions on `Fin`.
   The variational integrator itself lives outside the adapter's source file; it
   is modelled abstractly, with the one behaviour the adapter relies on
   (kinematic configurations at t2 are fixed to rho2) taken from the spec. -/

namespace Trep

/-- Python-level failures surfaced by the adapter code: numpy IndexError on an
out-of-range index, TypeError (wrong call arity), StandardError (the error
class raised by `bad_arguments`), and NameError (an undefined name). -/
inductive PyErr where
  | indexError (i : Nat)
  | typeError (msg : String)
  | standardError (msg : String)
  | nameError (msg : String)
deriving DecidableEq, Repr

/-- Configuration counts of the underlying mechanical system: `nDyn` dynamic
configurations (source `self._np = len(system.dyn_configs)`), `nKin` kinematic
configurations (source `self._nv = self._nrho = len(system.kin_configs)`), and
`nu` force inputs (source `self._nu = len(system.inputs)`).  Configurations are
ordered dynamic-then-kinematic (spec section 3). -/
structure Dims where
  nDyn : Nat
  nKin : Nat
  nu : Nat
deriving DecidableEq, Repr

/-- Source `self._nQ = len(system.configs)`: all configurations. -/
def Dims.nQ (D : Dims) : Nat := D.nDyn + D.nKin

/-- Source `self._nX = self._nQ + self._np + self._nv`. -/
def Dims.nX (D : Dims) : Nat := D.nQ + D.nDyn + D.nKin

/-- Source `self._nU = self._nu + self._nrho`. -/
def Dims.nU (D : Dims) : Nat := D.nu + D.nKin

/-- Numpy slice read `x[a:b]` (for 0 ≤ a ≤ b). -/
def sliceGet (x : List ℚ) (a b : Nat) : List ℚ := (x.take b).drop a

/-- Numpy slice assignment `x[a:b] = v`; faithful when `v.length = b - a` and
`b ≤ x.length`, which the theorems below guarantee. -/
def sliceSet (x : List ℚ) (a b : Nat) (v : List ℚ) : List ℚ :=
  x.take a ++ v ++ x.drop b

/-- Source `DSystem.build_state`: start from `np.zeros(nX)` and assign the
slices `[0:nQ]`, `[nQ:nQ+np]`, `[nQ+np:nX]` for the components that were
passed. -/
def build_state (D : Dims) (Q p v : Option (List ℚ)) : List ℚ :=
  let X := List.replicate D.nX (0 : ℚ)
  let X := match Q with
    | some Qv => sliceSet X 0 D.nQ Qv
    | none => X
  let X := match p with
    | some pv => sliceSet X D.nQ (D.nQ + D.nDyn) pv
    | none => X
  match v with
  | some vv => sliceSet X (D.nQ + D.nDyn) D.nX vv
  | none => X

/-- Source `DSystem.split_state`: when `X is None` the body executes
`X = nd.zeros(self.nX)` and the name `nd` is undefined (a typo for `np`), so
Python raises NameError; otherwise the three slices are returned. -/
def split_state (D : Dims) (X : Option (List ℚ)) :
    Except PyErr (List ℚ × List ℚ × List ℚ) :=
  match X with
  | none => .error (.nameError "nd")
  | some Xv =>
      .ok (sliceGet Xv 0 D.nQ, sliceGet Xv D.nQ (D.nQ + D.nDyn),
           sliceGet Xv (D.nQ + D.nDyn) D.nX)

/-- Source `DSystem.split_input`: `U = np.zeros(self.nU)` when omitted, then
return the `u` and `rho` slices. -/
def split_input (D : Dims) (U : Option (List ℚ)) : List ℚ × List ℚ :=
  let Uv := match U with
    | none => List.replicate D.nU (0 : ℚ)
    | some Uv => Uv
  (sliceGet Uv 0 D.nu, sliceGet Uv D.nu D.nU)

/-- Source `DSystem.build_trajectory`'s nested helper is declared as
`def bad_arguments(self, reason)` but every call site passes only the reason
string, so Python raises TypeError for the wrong argument count before the
StandardError message (which would have reported the expected length) is ever
built. -/
def bad_arguments (reason : String) : PyErr :=
  let _unbuilt_message : String := reason ++ "\nArguments: \n"
  .typeError "bad_arguments() takes exactly 2 arguments (1 given)"

/-- Length-check condition of `build_trajectory`: a component was passed and
its length differs from the expected one.  The expected length is an integer
(`len(self._time)` or `len(self._time)-1` in Python arithmetic). -/
def lenBad (c : Option (List (List ℚ))) (expected : Int) : Prop :=
  match c with
  | none => False
  | some l => (l.length : Int) ≠ expected

instance (c : Option (List (List ℚ))) (expected : Int) :
    Decidable (lenBad c expected) := by
  unfold lenBad
  exact match c with
  | none => inferInstance
  | some _ => inferInstance

/-- Column-block assignment `X[:, a:b] = C` of a whole component trajectory
(rows zipped; the row counts agree whenever the length checks passed). -/
def assignCols (X : List (List ℚ)) (a b : Nat) (C : Option (List (List ℚ))) :
    List (List ℚ) :=
  match C with
  | none => X
  | some Cv => List.zipWith (fun row crow => sliceSet row a b crow) X Cv

/-- Source `DSystem.build_trajectory`: check each component's length against the
time base (state components `len(time)`, input components `len(time)-1`),
raising via `bad_arguments` on the first mismatch, then build zero trajectories
and assign the column slices of the components that were passed.  (For an empty
time vector numpy's `np.zeros((-1, nU))` would also raise; the theorems only
use nonempty time vectors.) -/
def build_trajectory (D : Dims) (time : List ℚ)
    (Q p v u rho : Option (List (List ℚ))) :
    Except PyErr (List (List ℚ) × List (List ℚ)) :=
  if lenBad Q (time.length : Int) then
    .error (bad_arguments ("Invalid length for Q (expected " ++
      toString time.length ++ ")"))
  else if lenBad p (time.length : Int) then
    .error (bad_arguments ("Invalid length for p (expected " ++
      toString time.length ++ ")"))
  else if lenBad v (time.length : Int) then
    .error (bad_arguments ("Invalid length for v (expected " ++
      toString time.length ++ ")"))
  else if lenBad u ((time.length : Int) - 1) then
    .error (bad_arguments ("Invalid length for u (expected " ++
      toString ((time.length : Int) - 1) ++ ")"))
  else if lenBad rho ((time.length : Int) - 1) then
    .error (bad_arguments ("Invalid length for rho (expected " ++
      toString ((time.length : Int) - 1) ++ ")"))
  else
    let X := List.replicate time.length (List.replicate D.nX (0 : ℚ))
    let U := List.replicate (time.length - 1) (List.replicate D.nU (0 : ℚ))
    let X := assignCols X 0 D.nQ Q
    let X := assignCols X D.nQ (D.nQ + D.nDyn) p
    let X := assignCols X (D.nQ + D.nDyn) D.nX v
    let U := assignCols U 0 D.nu u
    let U := assignCols U D.nu D.nU rho
    .ok (X, U)

/-- Arguments held by the variational integrator after
`initialize_from_state(t1, q1, p1, lam1)` followed by `step(t2, u1, rho2)`:
they determine the Stepped state `(t2, q2, p2, lam2)` and every cached
derivative through the integrator's solver. -/
structure StepState (D : Dims) where
  t1 : ℚ
  t2 : ℚ
  q1 : Fin D.nQ → ℚ
  p1 : Fin D.nDyn → ℚ
  lam1 : Option (List ℚ)
  u1 : Fin D.nu → ℚ
  rho2 : Fin D.nKin → ℚ

/-- Modelled from the spec: the trep variational integrator (`self.varint`) is
not part of the adapter's source file.  Section 4.3 of the spec describes
`step` as solving the DEL residual for the dynamic part of `q2` (and `p2` via
the discrete Legendre transform) and then exposing first- and second-order
sensitivities of the solution; the solver and all sensitivity accessors are
therefore abstract functions of the step arguments.  The second-derivative
tensors are contracted by `np.inner` over their last axis (the output axis of
`q2` resp. `p2`). -/
structure VarIntModel (D : Dims) where
  q2dyn : StepState D → Fin D.nDyn → ℚ
  p2 : StepState D → Fin D.nDyn → ℚ
  q2_dq1 : StepState D → Fin D.nQ → Fin D.nQ → ℚ
  q2_dp1 : StepState D → Fin D.nQ → Fin D.nDyn → ℚ
  p2_dq1 : StepState D → Fin D.nDyn → Fin D.nQ → ℚ
  p2_dp1 : StepState D → Fin D.nDyn → Fin D.nDyn → ℚ
  q2_du1 : StepState D → Fin D.nQ → Fin D.nu → ℚ
  q2_dk2 : StepState D → Fin D.nQ → Fin D.nKin → ℚ
  p2_du1 : StepState D → Fin D.nDyn → Fin D.nu → ℚ
  p2_dk2 : StepState D → Fin D.nDyn → Fin D.nKin → ℚ
  q2_dq1dq1 : StepState D → Fin D.nQ → Fin D.nQ → Fin D.nQ → ℚ
  p2_dq1dq1 : StepState D → Fin D.nQ → Fin D.nQ → Fin D.nDyn → ℚ
  q2_dq1dp1 : StepState D → Fin D.nQ → Fin D.nDyn → Fin D.nQ → ℚ
  p2_dq1dp1 : StepState D → Fin D.nQ → Fin D.nDyn → Fin D.nDyn → ℚ
  q2_dp1dp1 : StepState D → Fin D.nDyn → Fin D.nDyn → Fin D.nQ → ℚ
  p2_dp1dp1 : StepState D → Fin D.nDyn → Fin D.nDyn → Fin D.nDyn → ℚ
  q2_dq1du1 : StepState D → Fin D.nQ → Fin D.nu → Fin D.nQ → ℚ
  p2_dq1du1 : StepState D → Fin D.nQ → Fin D.nu → Fin D.nDyn → ℚ
  q2_dq1dk2 : StepState D → Fin D.nQ → Fin D.nKin → Fin D.nQ → ℚ
  p2_dq1dk2 : StepState D → Fin D.nQ → Fin D.nKin → Fin D.nDyn → ℚ
  q2_dp1du1 : StepState D → Fin D.nDyn → Fin D.nu → Fin D.nQ → ℚ
  p2_dp1du1 : StepState D → Fin D.nDyn → Fin D.nu → Fin D.nDyn → ℚ
  q2_dp1dk2 : StepState D → Fin D.nDyn → Fin D.nKin → Fin D.nQ → ℚ
  p2_dp1dk2 : StepState D → Fin D.nDyn → Fin D.nKin → Fin D.nDyn → ℚ
  q2_du1du1 : StepState D → Fin D.nu → Fin D.nu → Fin D.nQ → ℚ
  p2_du1du1 : StepState D → Fin D.nu → Fin D.nu → Fin D.nDyn → ℚ
  q2_du1dk2 : StepState D → Fin D.nu → Fin D.nKin → Fin D.nQ → ℚ
  p2_du1dk2 : StepState D → Fin D.nu → Fin D.nKin → Fin D.nDyn → ℚ
  q2_dk2dk2 : StepState D → Fin D.nKin → Fin D.nKin → Fin D.nQ → ℚ
  p2_dk2dk2 : StepState D → Fin D.nKin → Fin D.nKin → Fin D.nDyn → ℚ

/-- The adapter: the integrator model, the time vector `self._time`, the
current index `self._k`, and the integrator's current step arguments. -/
structure DSystem (D : Dims) where
  model : VarIntModel D
  time : List ℚ
  k : Nat
  vs : StepState D

/-- Source `DSystem.kf`: `len(self._time) - 1` (Python integer arithmetic,
hence the value in `Int`). -/
def DSystem.kf {D : Dims} (d : DSystem D) : Int := (d.time.length : Int) - 1

/-- Numpy 1-D read `l[i]` for a nonnegative index: IndexError out of range. -/
def pyGet (l : List ℚ) (i : Nat) : Except PyErr ℚ :=
  if i < l.length then .ok (l.getD i 0) else .error (.indexError i)

/-- Source `DSystem.set`: store `k`, split `xk` and `uk`, read
`t1 = self._time[k]` and `t2 = self._time[k+1]`, then
`initialize_from_state(t1, q1, p1, lambda_k)` and `step(t2, u1, rho2)`.
The list components are handed to the fixed-size integrator arrays (modelled
with `getD`; the lengths agree in every use below). -/
def DSystem.set {D : Dims} (d : DSystem D) (xk uk : List ℚ) (k : Nat)
    (lam : Option (List ℚ)) : Except PyErr (DSystem D) :=
  match split_state D (some xk) with
  | .error e => .error e
  | .ok (q1, p1, _v1) =>
    let (u1, rho2) := split_input D (some uk)
    match pyGet d.time k with
    | .error e => .error e
    | .ok t1 =>
      match pyGet d.time (k + 1) with
      | .error e => .error e
      | .ok t2 =>
        .ok { d with
              k := k
              vs := { t1 := t1, t2 := t2
                      q1 := fun i => q1.getD i 0
                      p1 := fun i => p1.getD i 0
                      lam1 := lam
                      u1 := fun i => u1.getD i 0
                      rho2 := fun i => rho2.getD i 0 } }

/-- Total version of `set`: its value whenever `set` succeeds (the theorems
always supply the in-bounds hypothesis under which `set = .ok (setD ...)`). -/
def DSystem.setD {D : Dims} (d : DSystem D) (xk uk : List ℚ) (k : Nat)
    (lam : Option (List ℚ)) : DSystem D :=
  match d.set xk uk k lam with
  | .ok e => e
  | .error _ => d

/-- The integrator's `q2` after a step: the dynamic part is the solver's
solution; the kinematic part is fixed to `rho2`.  Modelled from the spec
(section 4.3): "Kinematic configs at `t2` are fixed to `k2`, not solved for". -/
def DSystem.q2 {D : Dims} (d : DSystem D) : Fin D.nQ → ℚ :=
  fun i =>
    if h : (i : Nat) < D.nDyn then d.model.q2dyn d.vs ⟨i, h⟩
    else d.vs.rho2 ⟨(i : Nat) - D.nDyn, by
      have hi := i.isLt
      unfold Dims.nQ at hi
      omega⟩

/-- The integrator's `p2` after a step. -/
def DSystem.p2v {D : Dims} (d : DSystem D) : Fin D.nDyn → ℚ :=
  d.model.p2 d.vs

/-- Source `DSystem.f`: the new state
`build_state(q2, p2, v2)` where `v2` is the componentwise
`(q2 - q1)/(t2 - t1)` over all configurations, with the first
`len(dyn_configs)` entries dropped. -/
def DSystem.f {D : Dims} (d : DSystem D) : List ℚ :=
  let v2all := List.ofFn (fun i : Fin D.nQ => (d.q2 i - d.vs.q1 i) / (d.vs.t2 - d.vs.t1))
  let v2 := v2all.drop D.nDyn
  build_state D (some (List.ofFn d.q2)) (some (List.ofFn d.p2v)) (some v2)

/-- Source `DSystem.fdx`: `np.diag(np.ones(nX) * -1/dt)` with the four
`Q`/`p` blocks overwritten from the integrator's first-order sensitivities;
everything outside those blocks keeps its initial value, in particular the
`v`-row block is `-1/dt` on the `v x v` diagonal and zero elsewhere. -/
def DSystem.fdx {D : Dims} (d : DSystem D) : Fin D.nX → Fin D.nX → ℚ :=
  let dt := d.time.getD (d.k + 1) 0 - d.time.getD d.k 0
  fun i j =>
    if hi : (i : Nat) < D.nQ then
      if hj : (j : Nat) < D.nQ then d.model.q2_dq1 d.vs ⟨i, hi⟩ ⟨j, hj⟩
      else if hj2 : (j : Nat) < D.nQ + D.nDyn then
        d.model.q2_dp1 d.vs ⟨i, hi⟩ ⟨(j : Nat) - D.nQ, by omega⟩
      else if (i : Nat) = (j : Nat) then -1 / dt else 0
    else if hi2 : (i : Nat) < D.nQ + D.nDyn then
      if hj : (j : Nat) < D.nQ then
        d.model.p2_dq1 d.vs ⟨(i : Nat) - D.nQ, by omega⟩ ⟨j, hj⟩
      else if hj2 : (j : Nat) < D.nQ + D.nDyn then
        d.model.p2_dp1 d.vs ⟨(i : Nat) - D.nQ, by omega⟩ ⟨(j : Nat) - D.nQ, by omega⟩
      else if (i : Nat) = (j : Nat) then -1 / dt else 0
    else if (i : Nat) = (j : Nat) then -1 / dt else 0

/-- Source `DSystem.fdu`: `np.zeros((nX, nU))` with the four `Q`/`p` blocks
overwritten from the integrator's sensitivities and the `v x rho` block set to
`np.diag(np.ones(nrho) * 1/dt)`. -/
def DSystem.fdu {D : Dims} (d : DSystem D) : Fin D.nX → Fin D.nU → ℚ :=
  let dt := d.time.getD (d.k + 1) 0 - d.time.getD d.k 0
  fun i j =>
    if hi : (i : Nat) < D.nQ then
      if hj : (j : Nat) < D.nu then d.model.q2_du1 d.vs ⟨i, hi⟩ ⟨j, hj⟩
      else d.model.q2_dk2 d.vs ⟨i, hi⟩ ⟨(j : Nat) - D.nu, by
        have hjU := j.isLt
        unfold Dims.nU at hjU
        omega⟩
    else if hi2 : (i : Nat) < D.nQ + D.nDyn then
      if hj : (j : Nat) < D.nu then
        d.model.p2_du1 d.vs ⟨(i : Nat) - D.nQ, by omega⟩ ⟨j, hj⟩
      else d.model.p2_dk2 d.vs ⟨(i : Nat) - D.nQ, by omega⟩ ⟨(j : Nat) - D.nu, by
        have hjU := j.isLt
        unfold Dims.nU at hjU
        omega⟩
    else
      if hj : (j : Nat) < D.nu then 0
      else if (i : Nat) - (D.nQ + D.nDyn) = (j : Nat) - D.nu then 1 / dt else 0

/-- `np.inner(z, T)` for a vector `z` and a 3-tensor `T`: contraction of the
last axis of `T` against `z`. -/
def innerT {a b c : Nat} (z : List ℚ) (T : Fin a → Fin b → Fin c → ℚ) :
    Fin a → Fin b → ℚ :=
  fun i j => ∑ r : Fin c, z.getD r 0 * T i j r

/-- Core of `DSystem.fdxdx` as a function of the extracted covector slices
`zQ = z[slice_Q]` and `zp = z[slice_p]`: the four `Q`/`p` blocks are the
contracted second-derivative tensors (with the `p x Q` block the transpose of
the `Q x p` block, as in the source), everything else stays zero. -/
def fdxdxZ {D : Dims} (m : VarIntModel D) (s : StepState D) (zQ zp : List ℚ) :
    Fin D.nX → Fin D.nX → ℚ :=
  fun i j =>
    if hi : (i : Nat) < D.nQ then
      if hj : (j : Nat) < D.nQ then
        innerT zQ (m.q2_dq1dq1 s) ⟨i, hi⟩ ⟨j, hj⟩ +
          innerT zp (m.p2_dq1dq1 s) ⟨i, hi⟩ ⟨j, hj⟩
      else if hj2 : (j : Nat) < D.nQ + D.nDyn then
        innerT zQ (m.q2_dq1dp1 s) ⟨i, hi⟩ ⟨(j : Nat) - D.nQ, by omega⟩ +
          innerT zp (m.p2_dq1dp1 s) ⟨i, hi⟩ ⟨(j : Nat) - D.nQ, by omega⟩
      else 0
    else if hi2 : (i : Nat) < D.nQ + D.nDyn then
      if hj : (j : Nat) < D.nQ then
        innerT zQ (m.q2_dq1dp1 s) ⟨j, hj⟩ ⟨(i : Nat) - D.nQ, by omega⟩ +
          innerT zp (m.p2_dq1dp1 s) ⟨j, hj⟩ ⟨(i : Nat) - D.nQ, by omega⟩
      else if hj2 : (j : Nat) < D.nQ + D.nDyn then
        innerT zQ (m.q2_dp1dp1 s) ⟨(i : Nat) - D.nQ, by omega⟩ ⟨(j : Nat) - D.nQ, by omega⟩ +
          innerT zp (m.p2_dp1dp1 s) ⟨(i : Nat) - D.nQ, by omega⟩ ⟨(j : Nat) - D.nQ, by omega⟩
      else 0
    else 0

/-- Source `DSystem.fdxdx`: extracts `zQ = z[slice_Q]`, `zp = z[slice_p]`
(`zv` is deliberately unread: "second derivative is always zero") and fills
the blocks. -/
def DSystem.fdxdx {D : Dims} (d : DSystem D) (z : List ℚ) :
    Fin D.nX → Fin D.nX → ℚ :=
  fdxdxZ d.model d.vs (sliceGet z 0 D.nQ) (sliceGet z D.nQ (D.nQ + D.nDyn))

/-- Core of `DSystem.fdxdu` as a function of the covector slices. -/
def fdxduZ {D : Dims} (m : VarIntModel D) (s : StepState D) (zQ zp : List ℚ) :
    Fin D.nX → Fin D.nU → ℚ :=
  fun i j =>
    if hi : (i : Nat) < D.nQ then
      if hj : (j : Nat) < D.nu then
        innerT zQ (m.q2_dq1du1 s) ⟨i, hi⟩ ⟨j, hj⟩ +
          innerT zp (m.p2_dq1du1 s) ⟨i, hi⟩ ⟨j, hj⟩
      else
        innerT zQ (m.q2_dq1dk2 s) ⟨i, hi⟩ ⟨(j : Nat) - D.nu, by
            have hjU := j.isLt
            unfold Dims.nU at hjU
            omega⟩ +
          innerT zp (m.p2_dq1dk2 s) ⟨i, hi⟩ ⟨(j : Nat) - D.nu, by
            have hjU := j.isLt
            unfold Dims.nU at hjU
            omega⟩
    else if hi2 : (i : Nat) < D.nQ + D.nDyn then
      if hj : (j : Nat) < D.nu then
        innerT zQ (m.q2_dp1du1 s) ⟨(i : Nat) - D.nQ, by omega⟩ ⟨j, hj⟩ +
          innerT zp (m.p2_dp1du1 s) ⟨(i : Nat) - D.nQ, by omega⟩ ⟨j, hj⟩
      else
        innerT zQ (m.q2_dp1dk2 s) ⟨(i : Nat) - D.nQ, by omega⟩ ⟨(j : Nat) - D.nu, by
            have hjU := j.isLt
            unfold Dims.nU at hjU
            omega⟩ +
          innerT zp (m.p2_dp1dk2 s) ⟨(i : Nat) - D.nQ, by omega⟩ ⟨(j : Nat) - D.nu, by
            have hjU := j.isLt
            unfold Dims.nU at hjU
            omega⟩
    else 0

/-- Source `DSystem.fdxdu`. -/
def DSystem.fdxdu {D : Dims} (d : DSystem D) (z : List ℚ) :
    Fin D.nX → Fin D.nU → ℚ :=
  fdxduZ d.model d.vs (sliceGet z 0 D.nQ) (sliceGet z D.nQ (D.nQ + D.nDyn))

/-- Core of `DSystem.fdudu` as a function of the covector slices (the
`rho x u` block is the transpose of the `u x rho` block, as in the source). -/
def fduduZ {D : Dims} (m : VarIntModel D) (s : StepState D) (zQ zp : List ℚ) :
    Fin D.nU → Fin D.nU → ℚ :=
  fun i j =>
    if hi : (i : Nat) < D.nu then
      if hj : (j : Nat) < D.nu then
        innerT zQ (m.q2_du1du1 s) ⟨i, hi⟩ ⟨j, hj⟩ +
          innerT zp (m.p2_du1du1 s) ⟨i, hi⟩ ⟨j, hj⟩
      else
        innerT zQ (m.q2_du1dk2 s) ⟨i, hi⟩ ⟨(j : Nat) - D.nu, by
            have hjU := j.isLt
            unfold Dims.nU at hjU
            omega⟩ +
          innerT zp (m.p2_du1dk2 s) ⟨i, hi⟩ ⟨(j : Nat) - D.nu, by
            have hjU := j.isLt
            unfold Dims.nU at hjU
            omega⟩
    else
      if hj : (j : Nat) < D.nu then
        innerT zQ (m.q2_du1dk2 s) ⟨j, hj⟩ ⟨(i : Nat) - D.nu, by
            have hiU := i.isLt
            unfold Dims.nU at hiU
            omega⟩ +
          innerT zp (m.p2_du1dk2 s) ⟨j, hj⟩ ⟨(i : Nat) - D.nu, by
            have hiU := i.isLt
            unfold Dims.nU at hiU
            omega⟩
      else
        innerT zQ (m.q2_dk2dk2 s) ⟨(i : Nat) - D.nu, by
            have hiU := i.isLt
            unfold Dims.nU at hiU
            omega⟩ ⟨(j : Nat) - D.nu, by
            have hjU := j.isLt
            unfold Dims.nU at hjU
            omega⟩ +
          innerT zp (m.p2_dk2dk2 s) ⟨(i : Nat) - D.nu, by
            have hiU := i.isLt
            unfold Dims.nU at hiU
            omega⟩ ⟨(j : Nat) - D.nu, by
            have hjU := j.isLt
            unfold Dims.nU at hjU
            omega⟩

/-- Source `DSystem.fdudu`. -/
def DSystem.fdudu {D : Dims} (d : DSystem D) (z : List ℚ) :
    Fin D.nU → Fin D.nU → ℚ :=
  fduduZ d.model d.vs (sliceGet z 0 D.nQ) (sliceGet z D.nQ (D.nQ + D.nDyn))

/-- Perturbation `dxk = xk.copy(); dxk[i] += delta` of one component. -/
def bump (xs : List ℚ) (i : Nat) (delta : ℚ) : List ℚ :=
  xs.set i (xs.getD i 0 + delta)

/-- One finite-difference column `(dfp - dfm)/(2*delta)`. -/
def colOfPair (dfp dfm : List ℚ) (delta : ℚ) : List ℚ :=
  List.zipWith (fun a b => (a - b) / (2 * delta)) dfp dfm

/-- The first loop of `validate_derivatives`: for each state index `i1`,
re-`set` at `xk` perturbed by `+delta` and by `-delta`, evaluate `f`, and
record the central-difference column; the adapter state is threaded through
exactly as the Python loop mutates it. -/
def DSystem.loopX {D : Dims} (xk uk : List ℚ) (k : Nat) (delta : ℚ) :
    List Nat → DSystem D → List (List ℚ) →
      Except PyErr (DSystem D × List (List ℚ))
  | [], d, cols => .ok (d, cols)
  | i1 :: rest, d, cols =>
    match d.set (bump xk i1 delta) uk k none with
    | .error e => .error e
    | .ok d2 =>
      let dfp := d2.f
      match d2.set (bump xk i1 (-delta)) uk k none with
      | .error e => .error e
      | .ok d3 =>
        let dfm := d3.f
        DSystem.loopX xk uk k delta rest d3 (cols ++ [colOfPair dfp dfm delta])

/-- The second loop of `validate_derivatives`: the same for each input index. -/
def DSystem.loopU {D : Dims} (xk uk : List ℚ) (k : Nat) (delta : ℚ) :
    List Nat → DSystem D → List (List ℚ) →
      Except PyErr (DSystem D × List (List ℚ))
  | [], d, cols => .ok (d, cols)
  | i1 :: rest, d, cols =>
    match d.set xk (bump uk i1 delta) k none with
    | .error e => .error e
    | .ok d2 =>
      let dfp := d2.f
      match d2.set xk (bump uk i1 (-delta)) k none with
      | .error e => .error e
      | .ok d3 =>
        let dfm := d3.f
        DSystem.loopU xk uk k delta rest d3 (cols ++ [colOfPair dfp dfm delta])

/-- Source `DSystem.validate_derivatives`: `set` at the nominal point, take the
analytic `fdx`/`fdu`, build the central-difference approximations column by
column, and return the two relative errors.  `np.linalg.norm` (the Frobenius
norm) belongs to numpy, not to this source file, so the two matrix norms are
taken as parameters; the returned adapter state is whatever the last `set` of
the loops left behind. -/
def DSystem.validate_derivatives {D : Dims} (d : DSystem D)
    (normX : (Fin D.nX → Fin D.nX → ℚ) → ℚ)
    (normU : (Fin D.nX → Fin D.nU → ℚ) → ℚ)
    (xk uk : List ℚ) (k : Nat) (delta : ℚ) :
    Except PyErr (DSystem D × ℚ × ℚ) :=
  match d.set xk uk k none with
  | .error e => .error e
  | .ok d1 =>
    -- The source binds f0 = self.f() here and never uses it; fdx_exact and
    -- fdu_exact are d1.fdx and d1.fdu (pure, so written inline below), and
    -- fdx_approx/fdu_approx are the column lists assembled by the two loops,
    -- read as matrices one column per perturbed index.
    match DSystem.loopX xk uk k delta (List.range D.nX) d1 [] with
    | .error e => .error e
    | .ok (dX, colsX) =>
      match DSystem.loopU xk uk k delta (List.range D.nU) dX [] with
      | .error e => .error e
      | .ok (dU, colsU) =>
        .ok (dU,
          normX (fun i j => d1.fdx i j - (colsX.getD (j : Nat) []).getD (i : Nat) 0) /
            normX d1.fdx,
          normU (fun i j => d1.fdu i j - (colsU.getD (j : Nat) []).getD (i : Nat) 0) /
            normU d1.fdu)

/-- The central finite difference of `f` with respect to the state, per
component: `(f at +delta minus f at -delta)/(2*delta)` — the matrix that the
first loop of `validate_derivatives` assembles. -/
def centralDiffX {D : Dims} (d : DSystem D) (xk uk : List ℚ) (k : Nat)
    (delta : ℚ) : Fin D.nX → Fin D.nX → ℚ :=
  fun i j =>
    match d.set (bump xk j delta) uk k none, d.set (bump xk j (-delta)) uk k none with
    | .ok dp, .ok dm => (dp.f.getD i 0 - dm.f.getD i 0) / (2 * delta)
    | _, _ => 0

/-- The central finite difference of `f` with respect to the input. -/
def centralDiffU {D : Dims} (d : DSystem D) (xk uk : List ℚ) (k : Nat)
    (delta : ℚ) : Fin D.nX → Fin D.nU → ℚ :=
  fun i j =>
    match d.set xk (bump uk j delta) k none, d.set xk (bump uk j (-delta)) k none with
    | .ok dp, .ok dm => (dp.f.getD i 0 - dm.f.getD i 0) / (2 * delta)
    | _, _ => 0

/-- Column-block read `M[:, a:b]`. -/
def readCols (M : List (List ℚ)) (a b : Nat) : List (List ℚ) :=
  M.map (fun row => sliceGet row a b)

/-- Source `DSystem.split_trajectory`: zero-fill an omitted trajectory (note
the `U is None` branch allocates `np.zeros((X.shape[0]+1, nU))`, literally as
written in the source), then read the five column blocks. -/
def split_trajectory (D : Dims) (time : List ℚ)
    (X U : Option (List (List ℚ))) :
    List (List ℚ) × List (List ℚ) × List (List ℚ) × List (List ℚ) ×
      List (List ℚ) :=
  let XU : List (List ℚ) × List (List ℚ) :=
    match X, U with
    | none, none =>
        (List.replicate time.length (List.replicate D.nX (0 : ℚ)),
         List.replicate (time.length - 1) (List.replicate D.nU (0 : ℚ)))
    | none, some Uv => (List.replicate (Uv.length + 1) (List.replicate D.nX (0 : ℚ)), Uv)
    | some Xv, none => (Xv, List.replicate (Xv.length + 1) (List.replicate D.nU (0 : ℚ)))
    | some Xv, some Uv => (Xv, Uv)
  (readCols XU.1 0 D.nQ, readCols XU.1 D.nQ (D.nQ + D.nDyn),
   readCols XU.1 (D.nQ + D.nDyn) D.nX,
   readCols XU.2 0 D.nu, readCols XU.2 D.nu D.nU)

/-- A small concrete system: one dynamic configuration, one kinematic
configuration, no force input.  So nQ = 2, nX = 4, nU = 1. -/
def demoDims : Dims := ⟨1, 1, 0⟩

/-- A concrete integrator instance over `demoDims` whose step map is affine
(`q2dyn = q1dyn`, `p2 = p1`) and whose sensitivity accessors are the true
derivatives of that map; all second derivatives vanish. -/
def demoModel : VarIntModel demoDims where
  q2dyn := fun s i => s.q1 ⟨i, by
    have h : (i : Nat) < 1 := i.isLt
    show (i : Nat) < 2
    omega⟩
  p2 := fun s i => s.p1 i
  q2_dq1 := fun _ i j => if (i : Nat) = 0 ∧ (j : Nat) = 0 then 1 else 0
  q2_dp1 := fun _ _ _ => 0
  p2_dq1 := fun _ _ _ => 0
  p2_dp1 := fun _ _ _ => 1
  q2_du1 := fun _ _ _ => 0
  q2_dk2 := fun _ i _ => if (i : Nat) = 1 then 1 else 0
  p2_du1 := fun _ _ _ => 0
  p2_dk2 := fun _ _ _ => 0
  q2_dq1dq1 := fun _ _ _ _ => 0
  p2_dq1dq1 := fun _ _ _ _ => 0
  q2_dq1dp1 := fun _ _ _ _ => 0
  p2_dq1dp1 := fun _ _ _ _ => 0
  q2_dp1dp1 := fun _ _ _ _ => 0
  p2_dp1dp1 := fun _ _ _ _ => 0
  q2_dq1du1 := fun _ _ _ _ => 0
  p2_dq1du1 := fun _ _ _ _ => 0
  q2_dq1dk2 := fun _ _ _ _ => 0
  p2_dq1dk2 := fun _ _ _ _ => 0
  q2_dp1du1 := fun _ _ _ _ => 0
  p2_dp1du1 := fun _ _ _ _ => 0
  q2_dp1dk2 := fun _ _ _ _ => 0
  p2_dp1dk2 := fun _ _ _ _ => 0
  q2_du1du1 := fun _ _ _ _ => 0
  p2_du1du1 := fun _ _ _ _ => 0
  q2_du1dk2 := fun _ _ _ _ => 0
  p2_du1dk2 := fun _ _ _ _ => 0
  q2_dk2dk2 := fun _ _ _ _ => 0
  p2_dk2dk2 := fun _ _ _ _ => 0

/-- Inert initial step arguments (every claim repositions with `set` first). -/
def demoVS : StepState demoDims where
  t1 := 0
  t2 := 1
  q1 := fun _ => 0
  p1 := fun _ => 0
  lam1 := none
  u1 := fun _ => 0
  rho2 := fun _ => 0

/-- The demo adapter over the three-point time vector `[0, 1, 2]`. -/
def demoDSys : DSystem demoDims :=
  { model := demoModel, time := [0, 1, 2], k := 0, vs := demoVS }

/-- The demo adapter over the two-point time vector `[0, 1]`. -/
def demoDSys2 : DSystem demoDims :=
  { model := demoModel, time := [0, 1], k := 0, vs := demoVS }

/-- C9: `split_state` with `X` omitted hits the undefined name `nd` and raises
NameError instead of returning the zero triple its docstring promises, while
`split_input` with `U` omitted does return zero `u` and `rho` vectors. -/
theorem split_state_none_nameError (D : Dims) :
    split_state D none = .error (.nameError "nd") ∧
    split_input D none =
      (List.replicate D.nu (0 : ℚ), List.replicate D.nKin (0 : ℚ)) := by
  refine ⟨rfl, ?_⟩
  unfold split_input sliceGet
  simp only [List.take_replicate, List.drop_replicate, List.drop_zero]
  have h1 : min D.nu D.nU = D.nu := by
    have : D.nU = D.nu + D.nKin := rfl
    omega
  have h2 : min D.nU D.nU = D.nU := by omega
  have h3 : D.nU - D.nu = D.nKin := by
    have : D.nU = D.nu + D.nKin := rfl
    omega
  rw [h1, h2, h3, Nat.sub_zero]

/-- With components of the declared lengths, `build_state` is concatenation. -/
theorem build_state_append (D : Dims) (Q p v : List ℚ)
    (hQ : Q.length = D.nQ) (hp : p.length = D.nDyn) (hv : v.length = D.nKin) :
    build_state D (some Q) (some p) (some v) = Q ++ p ++ v := by
  have hX : D.nX = D.nQ + D.nDyn + D.nKin := rfl
  have h1 : sliceSet (List.replicate D.nX (0 : ℚ)) 0 D.nQ Q =
      Q ++ List.replicate (D.nX - D.nQ) (0 : ℚ) := by
    unfold sliceSet
    simp [List.drop_replicate]
  have h2 : sliceSet (Q ++ List.replicate (D.nX - D.nQ) (0 : ℚ)) D.nQ
      (D.nQ + D.nDyn) p = (Q ++ p) ++ List.replicate D.nKin (0 : ℚ) := by
    unfold sliceSet
    rw [List.take_left' hQ]
    have hsplit : D.nQ + D.nDyn = Q.length + D.nDyn := by omega
    rw [hsplit, List.drop_append, List.drop_replicate]
    have hk : D.nX - D.nQ - D.nDyn = D.nKin := by omega
    rw [hk, List.append_assoc]
  have h3 : sliceSet ((Q ++ p) ++ List.replicate D.nKin (0 : ℚ))
      (D.nQ + D.nDyn) D.nX v = (Q ++ p) ++ v := by
    unfold sliceSet
    have hQp : (Q ++ p).length = D.nQ + D.nDyn := by
      rw [List.length_append, hQ, hp]
    rw [List.take_left' hQp]
    have hlen : ((Q ++ p) ++ List.replicate D.nKin (0 : ℚ)).length = D.nX := by
      rw [List.length_append, hQp, List.length_replicate]
      omega
    rw [List.drop_of_length_le (le_of_eq hlen), List.append_nil]
  show sliceSet (sliceSet (sliceSet (List.replicate D.nX (0 : ℚ)) 0 D.nQ Q)
      D.nQ (D.nQ + D.nDyn) p) (D.nQ + D.nDyn) D.nX v = Q ++ p ++ v
  rw [h1, h2, h3]

/-- C5: `split_state (build_state Q p v)` is the identity on any valid
component triple. -/
theorem split_build_state_roundtrip (D : Dims) (Q p v : List ℚ)
    (hQ : Q.length = D.nQ) (hp : p.length = D.nDyn) (hv : v.length = D.nKin) :
    split_state D (some (build_state D (some Q) (some p) (some v))) =
      .ok (Q, p, v) := by
  rw [build_state_append D Q p v hQ hp hv]
  have hQp : (Q ++ p).length = D.nQ + D.nDyn := by
    rw [List.length_append, hQ, hp]
  have hlen : ((Q ++ p) ++ v).length = D.nX := by
    rw [List.length_append, hQp, hv]
    rfl
  have e1 : (((Q ++ p) ++ v).take D.nQ).drop 0 = Q := by
    rw [List.drop_zero, List.append_assoc, List.take_left' hQ]
  have e2 : (((Q ++ p) ++ v).take (D.nQ + D.nDyn)).drop D.nQ = p := by
    rw [List.take_left' hQp, List.drop_left' hQ]
  have e3 : (((Q ++ p) ++ v).take D.nX).drop (D.nQ + D.nDyn) = v := by
    rw [List.take_of_length_le (le_of_eq hlen), List.drop_left' hQp]
  show Except.ok ((((Q ++ p ++ v).take D.nQ).drop 0),
      (((Q ++ p ++ v).take (D.nQ + D.nDyn)).drop D.nQ),
      (((Q ++ p ++ v).take D.nX).drop (D.nQ + D.nDyn))) = Except.ok (Q, p, v)
  rw [e1, e2, e3]

/-- C5 witness at a concrete triple. -/
theorem split_build_state_roundtrip_witness :
    ([(1 : ℚ), 2].length = demoDims.nQ ∧ [(3 : ℚ)].length = demoDims.nDyn ∧
      [(4 : ℚ)].length = demoDims.nKin) ∧
    split_state demoDims
        (some (build_state demoDims (some [1, 2]) (some [3]) (some [4]))) =
      .ok ([1, 2], [3], [4]) :=
  ⟨⟨by decide, by decide, by decide⟩,
    split_build_state_roundtrip demoDims [1, 2] [3] [4] (by decide) (by decide)
      (by decide)⟩

/-- C4: with no arguments, `build_trajectory` returns the all-zero state
trajectory of shape `(n, nX)` and input trajectory of shape `(n-1, nU)` for
any valid (nonempty) time vector of length `n`. -/
theorem build_trajectory_default_zero (D : Dims) (time : List ℚ)
    (h : 1 ≤ time.length) :
    build_trajectory D time none none none none none =
      .ok (List.replicate time.length (List.replicate D.nX (0 : ℚ)),
           List.replicate (time.length - 1) (List.replicate D.nU (0 : ℚ))) := by
  unfold build_trajectory
  simp [lenBad, assignCols]

/-- C4 witness at the demo time vector of length 3. -/
theorem build_trajectory_default_zero_witness :
    1 ≤ ([0, 1, 2] : List ℚ).length ∧
    build_trajectory demoDims [0, 1, 2] none none none none none =
      .ok (List.replicate 3 (List.replicate demoDims.nX (0 : ℚ)),
           List.replicate 2 (List.replicate demoDims.nU (0 : ℚ))) :=
  ⟨by decide, build_trajectory_default_zero demoDims [0, 1, 2] (by decide)⟩

/-- C3 (as the code actually behaves): on any of the five length mismatches,
`build_trajectory` raises immediately — it never truncates or pads — but the
exception is the TypeError from calling the two-parameter nested helper
`bad_arguments` with a single argument, not a StandardError carrying the
expected length. -/
theorem build_trajectory_mismatch_typeError (D : Dims) (time : List ℚ)
    (Qv pv vv uv rv : List (List ℚ)) :
    ((Qv.length : Int) ≠ time.length →
      build_trajectory D time (some Qv) none none none none =
        .error (.typeError "bad_arguments() takes exactly 2 arguments (1 given)")) ∧
    ((pv.length : Int) ≠ time.length →
      build_trajectory D time none (some pv) none none none =
        .error (.typeError "bad_arguments() takes exactly 2 arguments (1 given)")) ∧
    ((vv.length : Int) ≠ time.length →
      build_trajectory D time none none (some vv) none none =
        .error (.typeError "bad_arguments() takes exactly 2 arguments (1 given)")) ∧
    ((uv.length : Int) ≠ (time.length : Int) - 1 →
      build_trajectory D time none none none (some uv) none =
        .error (.typeError "bad_arguments() takes exactly 2 arguments (1 given)")) ∧
    ((rv.length : Int) ≠ (time.length : Int) - 1 →
      build_trajectory D time none none none none (some rv) =
        .error (.typeError "bad_arguments() takes exactly 2 arguments (1 given)")) := by
  refine ⟨?_, ?_, ?_, ?_, ?_⟩ <;> intro h <;>
    simp [build_trajectory, lenBad, bad_arguments, h]

/-- C3 witness: time of length 3; each component one row short. -/
theorem build_trajectory_mismatch_typeError_witness :
    build_trajectory demoDims [0, 1, 2] (some [[0, 0], [0, 0]]) none none none
        none =
      .error (.typeError "bad_arguments() takes exactly 2 arguments (1 given)") ∧
    build_trajectory demoDims [0, 1, 2] none none none (some [[5]]) none =
      .error (.typeError "bad_arguments() takes exactly 2 arguments (1 given)") :=
  ⟨(build_trajectory_mismatch_typeError demoDims [0, 1, 2] [[0, 0], [0, 0]] []
      [] [] []).1 (by decide),
   (build_trajectory_mismatch_typeError demoDims [0, 1, 2] [] [] [] [[5]]
      []).2.2.2.1 (by decide)⟩

/-- C6 (as the code actually behaves): `split_trajectory` with `X` given and
`U` omitted zero-fills the input components with `X.shape[0] + 1` rows — for a
time vector of length 3 the returned `u` and `rho` have 4 rows, not
`len(time) - 1 = 2`. -/
theorem split_trajectory_U_omitted_wrong_length :
    (split_trajectory demoDims [0, 1, 2]
        (some (List.replicate 3 (List.replicate demoDims.nX (0 : ℚ))))
        none).2.2.2.1.length = 4 ∧
    (split_trajectory demoDims [0, 1, 2]
        (some (List.replicate 3 (List.replicate demoDims.nX (0 : ℚ))))
        none).2.2.2.2.length = 4 ∧
    ([0, 1, 2] : List ℚ).length - 1 = 2 := by
  refine ⟨?_, ?_, by decide⟩ <;>
    simp [split_trajectory, readCols]

/-- The adapter state recorded by a successful `set` (spelled out). -/
def DSystem.mkSet {D : Dims} (d : DSystem D) (xk uk : List ℚ) (k : Nat)
    (lam : Option (List ℚ)) : DSystem D :=
  { d with
    k := k
    vs := { t1 := d.time.getD k 0
            t2 := d.time.getD (k + 1) 0
            q1 := fun i => (sliceGet xk 0 D.nQ).getD i 0
            p1 := fun i => (sliceGet xk D.nQ (D.nQ + D.nDyn)).getD i 0
            lam1 := lam
            u1 := fun i => (sliceGet uk 0 D.nu).getD i 0
            rho2 := fun i => (sliceGet uk D.nu D.nU).getD i 0 } }

/-- With `k` and `k+1` inside the time vector, `set` succeeds and records
exactly `mkSet`. -/
theorem DSystem.set_eq_ok {D : Dims} (d : DSystem D) (xk uk : List ℚ)
    (k : Nat) (lam : Option (List ℚ)) (hk : k + 1 < d.time.length) :
    d.set xk uk k lam = .ok (d.mkSet xk uk k lam) := by
  unfold DSystem.set DSystem.mkSet split_state split_input pyGet
  rw [if_pos (Nat.lt_of_succ_lt hk), if_pos hk]

/-- `setD` agrees with `mkSet` under the same bound. -/
theorem DSystem.setD_eq {D : Dims} (d : DSystem D) (xk uk : List ℚ)
    (k : Nat) (lam : Option (List ℚ)) (hk : k + 1 < d.time.length) :
    d.setD xk uk k lam = d.mkSet xk uk k lam := by
  unfold DSystem.setD
  rw [d.set_eq_ok xk uk k lam hk]

/-- C8 counterexample: for the two-point time vector, `kf() = 1`, yet
`set(xk, uk, kf())` reads `time[2]`, outside the time vector, so the claim
fails at `k = kf()`. -/
theorem set_at_kf_reads_out_of_bounds :
    demoDSys2.kf = 1 ∧
    demoDSys2.set [1, 2, 3, 4] [5] 1 none = .error (.indexError 2) := by
  exact ⟨by decide, rfl⟩

/-- C8 amended: `kf()` returns `len(time) - 1`, and `set(X[k], U[k], k)`
repositions the adapter at index `k` within the bounds of the time vector for
every `0 ≤ k ≤ kf() - 1` (it reads `time[k]` and `time[k+1]`); at `k = kf()`
itself the read of `time[k+1]` is out of bounds. -/
theorem kf_set_in_bounds {D : Dims} (d : DSystem D) (xk uk : List ℚ)
    (k : Nat) (lam : Option (List ℚ)) (h : (k : Int) < d.kf) :
    d.kf = (d.time.length : Int) - 1 ∧
    d.set xk uk k lam = .ok (d.setD xk uk k lam) ∧
    (d.setD xk uk k lam).k = k := by
  have hk : k + 1 < d.time.length := by
    unfold DSystem.kf at h
    omega
  refine ⟨rfl, ?_, ?_⟩
  · rw [d.set_eq_ok xk uk k lam hk, d.setD_eq xk uk k lam hk]
  · rw [d.setD_eq xk uk k lam hk]
    rfl

/-- C8 witness at `k = 0` on the three-point demo system. -/
theorem kf_set_in_bounds_witness :
    ((0 : Int) < demoDSys.kf) ∧
    (demoDSys.kf = (demoDSys.time.length : Int) - 1 ∧
     demoDSys.set [1, 2, 3, 4] [5] 0 none =
       .ok (demoDSys.setD [1, 2, 3, 4] [5] 0 none) ∧
     (demoDSys.setD [1, 2, 3, 4] [5] 0 none).k = 0) :=
  ⟨by decide, kf_set_in_bounds demoDSys [1, 2, 3, 4] [5] 0 none (by decide)⟩

/-- Componentwise read of a slice. -/
theorem sliceGet_getD (l : List ℚ) (a b i : Nat) (h : a + i < b) :
    (sliceGet l a b).getD i 0 = l.getD (a + i) 0 := by
  unfold sliceGet
  rw [List.getD_eq_getElem?_getD, List.getD_eq_getElem?_getD,
    List.getElem?_drop, List.getElem?_take_of_lt h]

/-- Reading the three state slices of a concatenation of components with the
declared lengths. -/
theorem sliceGet_append3 (D : Dims) (A B C : List ℚ) (hA : A.length = D.nQ)
    (hB : B.length = D.nDyn) (hC : C.length = D.nKin) :
    sliceGet (A ++ B ++ C) 0 D.nQ = A ∧
    sliceGet (A ++ B ++ C) D.nQ (D.nQ + D.nDyn) = B ∧
    sliceGet (A ++ B ++ C) (D.nQ + D.nDyn) D.nX = C := by
  have hAB : (A ++ B).length = D.nQ + D.nDyn := by
    rw [List.length_append, hA, hB]
  have hlen : ((A ++ B) ++ C).length = D.nX := by
    rw [List.length_append, hAB, hC]
    rfl
  refine ⟨?_, ?_, ?_⟩
  · unfold sliceGet
    rw [List.drop_zero, List.append_assoc, List.take_left' hA]
  · unfold sliceGet
    rw [List.take_left' hAB, List.drop_left' hA]
  · unfold sliceGet
    rw [List.take_of_length_le (le_of_eq hlen), List.drop_left' hAB]

/-- C2: after a successful `set(X[k], U[k], k)`, the `Q` and `p` slices of
`f()` are exactly the integrator's `q2` and `p2`, and each component of the
`v` slice is `(rho[k+1]_i - QKin[k]_i)/(t[k+1] - t[k])`: the kinematic input
slice of `U[k]` minus the kinematic part of the `Q` slice of `X[k]`, divided
by the time difference — exact division of rationals, with no further
approximation. -/
theorem f_after_set_slices {D : Dims} (d : DSystem D) (xk uk : List ℚ)
    (k : Nat) (hk : k + 1 < d.time.length) :
    sliceGet (d.setD xk uk k none).f 0 D.nQ =
      List.ofFn (d.setD xk uk k none).q2 ∧
    sliceGet (d.setD xk uk k none).f D.nQ (D.nQ + D.nDyn) =
      List.ofFn (d.setD xk uk k none).p2v ∧
    ∀ i : Fin D.nKin,
      (sliceGet (d.setD xk uk k none).f (D.nQ + D.nDyn) D.nX).getD i 0 =
        (uk.getD (D.nu + i) 0 - xk.getD (D.nDyn + i) 0) /
          (d.time.getD (k + 1) 0 - d.time.getD k 0) := by
  rw [d.setD_eq xk uk k none hk]
  have hCl : ((List.ofFn (fun i : Fin D.nQ =>
      ((d.mkSet xk uk k none).q2 i - (d.mkSet xk uk k none).vs.q1 i) /
        ((d.mkSet xk uk k none).vs.t2 - (d.mkSet xk uk k none).vs.t1))).drop
          D.nDyn).length = D.nKin := by
    rw [List.length_drop, List.length_ofFn]
    unfold Dims.nQ
    omega
  have hf : (d.mkSet xk uk k none).f =
      List.ofFn (d.mkSet xk uk k none).q2 ++
        List.ofFn (d.mkSet xk uk k none).p2v ++
        (List.ofFn (fun i : Fin D.nQ =>
          ((d.mkSet xk uk k none).q2 i - (d.mkSet xk uk k none).vs.q1 i) /
            ((d.mkSet xk uk k none).vs.t2 - (d.mkSet xk uk k none).vs.t1))).drop
              D.nDyn := by
    unfold DSystem.f
    exact build_state_append D _ _ _ (List.length_ofFn _) (List.length_ofFn _)
      hCl
  obtain ⟨e1, e2, e3⟩ := sliceGet_append3 D _ _ _ (List.length_ofFn _)
    (List.length_ofFn _) hCl
  refine ⟨by rw [hf, e1], by rw [hf, e2], ?_⟩
  intro i
  rw [hf, e3]
  have hidx : D.nDyn + (i : Nat) < D.nQ := by
    unfold Dims.nQ
    omega
  rw [List.getD_eq_getElem?_getD, List.getElem?_drop, List.getElem?_ofFn]
  unfold List.ofFnNthVal
  rw [dif_pos hidx, Option.getD_some]
  have hq2 : (d.mkSet xk uk k none).q2 ⟨D.nDyn + (i : Nat), hidx⟩ =
      uk.getD (D.nu + (i : Nat)) 0 := by
    unfold DSystem.q2
    rw [dif_neg (Nat.not_lt.mpr (Nat.le_add_right D.nDyn i))]
    show (sliceGet uk D.nu D.nU).getD (D.nDyn + (i : Nat) - D.nDyn) 0 = _
    have hcancel : D.nDyn + (i : Nat) - D.nDyn = (i : Nat) := by omega
    rw [hcancel,
      sliceGet_getD uk D.nu D.nU i (by
        have := i.isLt
        unfold Dims.nU
        omega)]
  have hq1 : (d.mkSet xk uk k none).vs.q1 ⟨D.nDyn + (i : Nat), hidx⟩ =
      xk.getD (D.nDyn + (i : Nat)) 0 := by
    show (sliceGet xk 0 D.nQ).getD (D.nDyn + (i : Nat)) 0 = _
    rw [sliceGet_getD xk 0 D.nQ (D.nDyn + (i : Nat)) (by omega), Nat.zero_add]
  show ((d.mkSet xk uk k none).q2 ⟨D.nDyn + (i : Nat), hidx⟩ -
      (d.mkSet xk uk k none).vs.q1 ⟨D.nDyn + (i : Nat), hidx⟩) /
      ((d.mkSet xk uk k none).vs.t2 - (d.mkSet xk uk k none).vs.t1) =
    (uk.getD (D.nu + (i : Nat)) 0 - xk.getD (D.nDyn + (i : Nat)) 0) /
      (d.time.getD (k + 1) 0 - d.time.getD k 0)
  rw [hq2, hq1]
  rfl

/-- C2 witness on the demo system at `k = 0`. -/
theorem f_after_set_slices_witness :
    (0 + 1 < demoDSys.time.length) ∧
    (sliceGet (demoDSys.setD [1, 2, 3, 4] [5] 0 none).f 0 demoDims.nQ =
       List.ofFn (demoDSys.setD [1, 2, 3, 4] [5] 0 none).q2 ∧
     sliceGet (demoDSys.setD [1, 2, 3, 4] [5] 0 none).f demoDims.nQ
         (demoDims.nQ + demoDims.nDyn) =
       List.ofFn (demoDSys.setD [1, 2, 3, 4] [5] 0 none).p2v ∧
     ∀ i : Fin demoDims.nKin,
       (sliceGet (demoDSys.setD [1, 2, 3, 4] [5] 0 none).f
           (demoDims.nQ + demoDims.nDyn) demoDims.nX).getD i 0 =
         (([5] : List ℚ).getD (demoDims.nu + i) 0 -
             ([1, 2, 3, 4] : List ℚ).getD (demoDims.nDyn + i) 0) /
           (demoDSys.time.getD (0 + 1) 0 - demoDSys.time.getD 0 0)) :=
  ⟨by decide, f_after_set_slices demoDSys [1, 2, 3, 4] [5] 0 (by decide)⟩

/-- C7: the three second-derivative accessors contract only against the `Q`
and `p` slices of the caller-supplied covector `z` (the `v` block's second
derivative is structurally zero): two covectors agreeing on the first
`nQ + np` entries — differing only on the `v` slice — give identical
`fdxdx`, `fdxdu` and `fdudu`. -/
theorem hessians_ignore_v_slice {D : Dims} (d : DSystem D) (z z' : List ℚ)
    (h : z.take (D.nQ + D.nDyn) = z'.take (D.nQ + D.nDyn)) :
    d.fdxdx z = d.fdxdx z' ∧ d.fdxdu z = d.fdxdu z' ∧
    d.fdudu z = d.fdudu z' := by
  have hQ : sliceGet z 0 D.nQ = sliceGet z' 0 D.nQ := by
    have h1 := congrArg (List.take D.nQ) h
    simp only [List.take_take,
      Nat.min_eq_left (Nat.le_add_right D.nQ D.nDyn)] at h1
    unfold sliceGet
    rw [List.drop_zero, List.drop_zero, h1]
  have hp : sliceGet z D.nQ (D.nQ + D.nDyn) =
      sliceGet z' D.nQ (D.nQ + D.nDyn) := by
    unfold sliceGet
    exact congrArg (List.drop D.nQ) h
  refine ⟨?_, ?_, ?_⟩
  · unfold DSystem.fdxdx
    rw [hQ, hp]
  · unfold DSystem.fdxdu
    rw [hQ, hp]
  · unfold DSystem.fdudu
    rw [hQ, hp]

/-- C7 witness: two covectors differing only in the `v` entry. -/
theorem hessians_ignore_v_slice_witness :
    (([1, 2, 3, 4] : List ℚ).take (demoDims.nQ + demoDims.nDyn) =
      ([1, 2, 3, 7] : List ℚ).take (demoDims.nQ + demoDims.nDyn)) ∧
    (demoDSys.fdxdx [1, 2, 3, 4] = demoDSys.fdxdx [1, 2, 3, 7] ∧
     demoDSys.fdxdu [1, 2, 3, 4] = demoDSys.fdxdu [1, 2, 3, 7] ∧
     demoDSys.fdudu [1, 2, 3, 4] = demoDSys.fdudu [1, 2, 3, 7]) :=
  ⟨by decide, hessians_ignore_v_slice demoDSys [1, 2, 3, 4] [1, 2, 3, 7]
    (by decide)⟩

/-- C1 (the code is wrong in the `v` rows of `fdx`): on the demo system —
whose integrator step is affine, so the central difference of `f` is its exact
Jacobian — `fdu` equals the exact derivative of `f` with respect to the input,
but `fdx` does not equal the exact derivative with respect to the state: `f`'s
`v` output reads `X[k]` only through the kinematic part of the `Q` slice
(column 1 here) and never through the `v` slice (column 3), yet `fdx` carries
`-1/dt` at `(3,3)` and `0` at `(3,1)` where the exact derivative has `0` and
`-1/dt`.  All rows other than the `v` row agree. -/
theorem fdx_v_rows_wrong_fdu_right :
    (demoDSys.setD [1, 2, 3, 4] [5] 0 none).fdu =
      centralDiffU demoDSys [1, 2, 3, 4] [5] 0 (1 / 100) ∧
    (demoDSys.setD [1, 2, 3, 4] [5] 0 none).fdx ≠
      centralDiffX demoDSys [1, 2, 3, 4] [5] 0 (1 / 100) ∧
    (demoDSys.setD [1, 2, 3, 4] [5] 0 none).fdx ⟨3, by decide⟩ ⟨1, by decide⟩
      = 0 ∧
    centralDiffX demoDSys [1, 2, 3, 4] [5] 0 (1 / 100) ⟨3, by decide⟩
      ⟨1, by decide⟩ = -1 ∧
    (demoDSys.setD [1, 2, 3, 4] [5] 0 none).fdx ⟨3, by decide⟩ ⟨3, by decide⟩
      = -1 ∧
    centralDiffX demoDSys [1, 2, 3, 4] [5] 0 (1 / 100) ⟨3, by decide⟩
      ⟨3, by decide⟩ = 0 ∧
    (∀ i j : Fin demoDims.nX, (i : Nat) = 3 ∨
      (demoDSys.setD [1, 2, 3, 4] [5] 0 none).fdx i j =
        centralDiffX demoDSys [1, 2, 3, 4] [5] 0 (1 / 100) i j) := by
  have e31x : (demoDSys.setD [1, 2, 3, 4] [5] 0 none).fdx ⟨3, by decide⟩
      ⟨1, by decide⟩ = 0 := by
    norm_num [DSystem.setD, DSystem.fdx, DSystem.set, split_state, split_input,
      pyGet, DSystem.mkSet, sliceGet, sliceSet, demoDSys, demoDims, demoModel,
      demoVS, Dims.nQ, Dims.nX, Dims.nU]
  have e31c : centralDiffX demoDSys [1, 2, 3, 4] [5] 0 (1 / 100) ⟨3, by decide⟩
      ⟨1, by decide⟩ = -1 := by
    norm_num [centralDiffX, DSystem.set, split_state, split_input, pyGet,
      DSystem.mkSet, DSystem.f, DSystem.q2, DSystem.p2v, build_state, sliceGet,
      sliceSet, bump, demoDSys, demoDims, demoModel, demoVS, Dims.nQ, Dims.nX,
      Dims.nU]
  have e33x : (demoDSys.setD [1, 2, 3, 4] [5] 0 none).fdx ⟨3, by decide⟩
      ⟨3, by decide⟩ = -1 := by
    norm_num [DSystem.setD, DSystem.fdx, DSystem.set, split_state, split_input,
      pyGet, DSystem.mkSet, sliceGet, sliceSet, demoDSys, demoDims, demoModel,
      demoVS, Dims.nQ, Dims.nX, Dims.nU]
  have e33c : centralDiffX demoDSys [1, 2, 3, 4] [5] 0 (1 / 100) ⟨3, by decide⟩
      ⟨3, by decide⟩ = 0 := by
    norm_num [centralDiffX, DSystem.set, split_state, split_input, pyGet,
      DSystem.mkSet, DSystem.f, DSystem.q2, DSystem.p2v, build_state, sliceGet,
      sliceSet, bump, demoDSys, demoDims, demoModel, demoVS, Dims.nQ, Dims.nX,
      Dims.nU]
  have hfdu : (demoDSys.setD [1, 2, 3, 4] [5] 0 none).fdu =
      centralDiffU demoDSys [1, 2, 3, 4] [5] 0 (1 / 100) := by
    funext i j
    fin_cases i <;> fin_cases j <;>
      norm_num [DSystem.setD, DSystem.fdu, centralDiffU, DSystem.set,
        split_state, split_input, pyGet, DSystem.mkSet, DSystem.f, DSystem.q2,
        DSystem.p2v, build_state, sliceGet, sliceSet, bump, demoDSys, demoDims,
        demoModel, demoVS, Dims.nQ, Dims.nX, Dims.nU]
  have hall : ∀ i j : Fin demoDims.nX, (i : Nat) = 3 ∨
      (demoDSys.setD [1, 2, 3, 4] [5] 0 none).fdx i j =
        centralDiffX demoDSys [1, 2, 3, 4] [5] 0 (1 / 100) i j := by
    intro i j
    fin_cases i
    · refine Or.inr ?_
      fin_cases j <;>
        norm_num [DSystem.setD, DSystem.fdx, centralDiffX, DSystem.set,
          split_state, split_input, pyGet, DSystem.mkSet, DSystem.f, DSystem.q2,
          DSystem.p2v, build_state, sliceGet, sliceSet, bump, demoDSys,
          demoDims, demoModel, demoVS, Dims.nQ, Dims.nX, Dims.nU]
    · refine Or.inr ?_
      fin_cases j <;>
        norm_num [DSystem.setD, DSystem.fdx, centralDiffX, DSystem.set,
          split_state, split_input, pyGet, DSystem.mkSet, DSystem.f, DSystem.q2,
          DSystem.p2v, build_state, sliceGet, sliceSet, bump, demoDSys,
          demoDims, demoModel, demoVS, Dims.nQ, Dims.nX, Dims.nU]
    · refine Or.inr ?_
      fin_cases j <;>
        norm_num [DSystem.setD, DSystem.fdx, centralDiffX, DSystem.set,
          split_state, split_input, pyGet, DSystem.mkSet, DSystem.f, DSystem.q2,
          DSystem.p2v, build_state, sliceGet, sliceSet, bump, demoDSys,
          demoDims, demoModel, demoVS, Dims.nQ, Dims.nX, Dims.nU]
    · exact Or.inl rfl
  refine ⟨hfdu, ?_, e31x, e31c, e33x, e33c, hall⟩
  intro hcontra
  have h2 := congrFun (congrFun hcontra ⟨3, by decide⟩) ⟨3, by decide⟩
  rw [e33x, e33c] at h2
  exact absurd h2 (by norm_num)

/-- `mkSet` depends on the current adapter only through its time vector and
integrator model. -/
theorem DSystem.mkSet_congr {D : Dims} {d0 d : DSystem D}
    (ht : d0.time = d.time) (hm : d0.model = d.model) (xk uk : List ℚ)
    (k : Nat) (lam : Option (List ℚ)) :
    d0.mkSet xk uk k lam = d.mkSet xk uk k lam := by
  unfold DSystem.mkSet
  rw [ht, hm]

/-- The state vector returned by `f` always has length `nX`. -/
theorem DSystem.f_length {D : Dims} (d : DSystem D) : d.f.length = D.nX := by
  have hCl : ((List.ofFn fun i : Fin D.nQ =>
      (d.q2 i - d.vs.q1 i) / (d.vs.t2 - d.vs.t1)).drop D.nDyn).length =
      D.nKin := by
    rw [List.length_drop, List.length_ofFn]
    unfold Dims.nQ
    omega
  have hf : d.f = List.ofFn d.q2 ++ List.ofFn d.p2v ++
      (List.ofFn fun i : Fin D.nQ =>
        (d.q2 i - d.vs.q1 i) / (d.vs.t2 - d.vs.t1)).drop D.nDyn := by
    unfold DSystem.f
    exact build_state_append D _ _ _ (List.length_ofFn _) (List.length_ofFn _)
      hCl
  rw [hf, List.length_append, List.length_append, List.length_ofFn,
    List.length_ofFn, hCl]
  rfl

/-- Entry read of a central-difference column. -/
theorem colOfPair_getD (fp fm : List ℚ) (delta : ℚ) (i : Nat)
    (h1 : i < fp.length) (h2 : i < fm.length) :
    (colOfPair fp fm delta).getD i 0 =
      (fp.getD i 0 - fm.getD i 0) / (2 * delta) := by
  unfold colOfPair
  rw [List.getD_eq_getElem?_getD, List.getElem?_zipWith,
    List.getElem?_eq_getElem h1, List.getElem?_eq_getElem h2,
    List.getD_eq_getElem?_getD, List.getD_eq_getElem?_getD,
    List.getElem?_eq_getElem h1, List.getElem?_eq_getElem h2]
  rfl

/-- The state loop of `validate_derivatives`, in closed form: under the
in-bounds hypothesis every `set` succeeds; the accumulated columns are the
central differences and the threaded adapter state is whatever the last
`-delta` probe left behind. -/
theorem DSystem.loopX_ok {D : Dims} (d : DSystem D) (xk uk : List ℚ) (k : Nat)
    (delta : ℚ) (hk : k + 1 < d.time.length) :
    ∀ (l : List Nat) (d0 : DSystem D), d0.time = d.time → d0.model = d.model →
      ∀ cols : List (List ℚ),
        DSystem.loopX xk uk k delta l d0 cols =
          .ok (l.foldl (fun _ i1 => d.mkSet (bump xk i1 (-delta)) uk k none) d0,
               cols ++ l.map (fun i1 =>
                 colOfPair (d.mkSet (bump xk i1 delta) uk k none).f
                   (d.mkSet (bump xk i1 (-delta)) uk k none).f delta)) := by
  intro l
  induction l with
  | nil =>
    intro d0 ht hm cols
    simp [DSystem.loopX]
  | cons i1 rest ih =>
    intro d0 ht hm cols
    have hk0 : k + 1 < d0.time.length := by
      rw [ht]
      exact hk
    have hset1 : d0.set (bump xk i1 delta) uk k none =
        .ok (d.mkSet (bump xk i1 delta) uk k none) := by
      rw [d0.set_eq_ok (bump xk i1 delta) uk k none hk0,
        DSystem.mkSet_congr ht hm]
    rw [DSystem.loopX]
    split
    next e heq =>
      rw [hset1] at heq
      cases heq
    next d2 heq =>
      rw [hset1] at heq
      injection heq with h2
      subst h2
      have hset2 : (d.mkSet (bump xk i1 delta) uk k none).set
          (bump xk i1 (-delta)) uk k none =
          .ok (d.mkSet (bump xk i1 (-delta)) uk k none) := by
        rw [(d.mkSet (bump xk i1 delta) uk k none).set_eq_ok
          (bump xk i1 (-delta)) uk k none hk]
        exact congrArg Except.ok
          (@DSystem.mkSet_congr D (d.mkSet (bump xk i1 delta) uk k none) d
            rfl rfl (bump xk i1 (-delta)) uk k none)
      split
      next e heq2 =>
        rw [hset2] at heq2
        cases heq2
      next d3 heq2 =>
        rw [hset2] at heq2
        injection heq2 with h3
        subst h3
        rw [ih (d.mkSet (bump xk i1 (-delta)) uk k none) rfl rfl
          (cols ++ [colOfPair (d.mkSet (bump xk i1 delta) uk k none).f
            (d.mkSet (bump xk i1 (-delta)) uk k none).f delta])]
        simp [List.append_assoc]

/-- The input loop of `validate_derivatives`, in closed form. -/
theorem DSystem.loopU_ok {D : Dims} (d : DSystem D) (xk uk : List ℚ) (k : Nat)
    (delta : ℚ) (hk : k + 1 < d.time.length) :
    ∀ (l : List Nat) (d0 : DSystem D), d0.time = d.time → d0.model = d.model →
      ∀ cols : List (List ℚ),
        DSystem.loopU xk uk k delta l d0 cols =
          .ok (l.foldl (fun _ i1 => d.mkSet xk (bump uk i1 (-delta)) k none) d0,
               cols ++ l.map (fun i1 =>
                 colOfPair (d.mkSet xk (bump uk i1 delta) k none).f
                   (d.mkSet xk (bump uk i1 (-delta)) k none).f delta)) := by
  intro l
  induction l with
  | nil =>
    intro d0 ht hm cols
    simp [DSystem.loopU]
  | cons i1 rest ih =>
    intro d0 ht hm cols
    have hk0 : k + 1 < d0.time.length := by
      rw [ht]
      exact hk
    have hset1 : d0.set xk (bump uk i1 delta) k none =
        .ok (d.mkSet xk (bump uk i1 delta) k none) := by
      rw [d0.set_eq_ok xk (bump uk i1 delta) k none hk0,
        DSystem.mkSet_congr ht hm]
    rw [DSystem.loopU]
    split
    next e heq =>
      rw [hset1] at heq
      cases heq
    next d2 heq =>
      rw [hset1] at heq
      injection heq with h2
      subst h2
      have hset2 : (d.mkSet xk (bump uk i1 delta) k none).set
          xk (bump uk i1 (-delta)) k none =
          .ok (d.mkSet xk (bump uk i1 (-delta)) k none) := by
        rw [(d.mkSet xk (bump uk i1 delta) k none).set_eq_ok
          xk (bump uk i1 (-delta)) k none hk]
        exact congrArg Except.ok
          (@DSystem.mkSet_congr D (d.mkSet xk (bump uk i1 delta) k none) d
            rfl rfl xk (bump uk i1 (-delta)) k none)
      split
      next e heq2 =>
        rw [hset2] at heq2
        cases heq2
      next d3 heq2 =>
        rw [hset2] at heq2
        injection heq2 with h3
        subst h3
        rw [ih (d.mkSet xk (bump uk i1 (-delta)) k none) rfl rfl
          (cols ++ [colOfPair (d.mkSet xk (bump uk i1 delta) k none).f
            (d.mkSet xk (bump uk i1 (-delta)) k none).f delta])]
        simp [List.append_assoc]

/-- Folding a state update that ignores the accumulator preserves the time
vector and model fields. -/
theorem foldl_update_fields {D : Dims} (d : DSystem D) (g : Nat → DSystem D)
    (hg : ∀ i1, (g i1).time = d.time ∧ (g i1).model = d.model) :
    ∀ (l : List Nat) (d0 : DSystem D), d0.time = d.time → d0.model = d.model →
      (l.foldl (fun _ i1 => g i1) d0).time = d.time ∧
      (l.foldl (fun _ i1 => g i1) d0).model = d.model := by
  intro l
  induction l with
  | nil =>
    intro d0 h1 h2
    exact ⟨h1, h2⟩
  | cons a rest ih =>
    intro d0 h1 h2
    simp only [List.foldl_cons]
    exact ih (g a) (hg a).1 (hg a).2

/-- The matrix the state loop assembles is the central difference of `f` with
respect to the state, entry by entry. -/
theorem approx_entry_X {D : Dims} (d : DSystem D) (xk uk : List ℚ) (k : Nat)
    (delta : ℚ) (hk : k + 1 < d.time.length) (i j : Fin D.nX) :
    (((List.range D.nX).map (fun i1 =>
        colOfPair (d.mkSet (bump xk i1 delta) uk k none).f
          (d.mkSet (bump xk i1 (-delta)) uk k none).f delta)).getD (j : Nat)
        []).getD (i : Nat) 0 =
      centralDiffX d xk uk k delta i j := by
  have hcol : ((List.range D.nX).map (fun i1 =>
      colOfPair (d.mkSet (bump xk i1 delta) uk k none).f
        (d.mkSet (bump xk i1 (-delta)) uk k none).f delta)).getD (j : Nat) [] =
      colOfPair (d.mkSet (bump xk (j : Nat) delta) uk k none).f
        (d.mkSet (bump xk (j : Nat) (-delta)) uk k none).f delta := by
    rw [List.getD_eq_getElem?_getD, List.getElem?_map,
      List.getElem?_range j.isLt]
    rfl
  rw [hcol, colOfPair_getD _ _ _ _
    (by rw [DSystem.f_length]; exact i.isLt)
    (by rw [DSystem.f_length]; exact i.isLt)]
  unfold centralDiffX
  rw [d.set_eq_ok (bump xk (j : Nat) delta) uk k none hk,
    d.set_eq_ok (bump xk (j : Nat) (-delta)) uk k none hk]

/-- The matrix the input loop assembles is the central difference of `f` with
respect to the input, entry by entry. -/
theorem approx_entry_U {D : Dims} (d : DSystem D) (xk uk : List ℚ) (k : Nat)
    (delta : ℚ) (hk : k + 1 < d.time.length) (i : Fin D.nX) (j : Fin D.nU) :
    (((List.range D.nU).map (fun i1 =>
        colOfPair (d.mkSet xk (bump uk i1 delta) k none).f
          (d.mkSet xk (bump uk i1 (-delta)) k none).f delta)).getD (j : Nat)
        []).getD (i : Nat) 0 =
      centralDiffU d xk uk k delta i j := by
  have hcol : ((List.range D.nU).map (fun i1 =>
      colOfPair (d.mkSet xk (bump uk i1 delta) k none).f
        (d.mkSet xk (bump uk i1 (-delta)) k none).f delta)).getD (j : Nat) [] =
      colOfPair (d.mkSet xk (bump uk (j : Nat) delta) k none).f
        (d.mkSet xk (bump uk (j : Nat) (-delta)) k none).f delta := by
    rw [List.getD_eq_getElem?_getD, List.getElem?_map,
      List.getElem?_range j.isLt]
    rfl
  rw [hcol, colOfPair_getD _ _ _ _
    (by rw [DSystem.f_length]; exact i.isLt)
    (by rw [DSystem.f_length]; exact i.isLt)]
  unfold centralDiffU
  rw [d.set_eq_ok xk (bump uk (j : Nat) delta) k none hk,
    d.set_eq_ok xk (bump uk (j : Nat) (-delta)) k none hk]

/-- C10: `validate_derivatives(xk, uk, k, delta)` returns the pair of relative
errors `norm(exact - approx)/norm(exact)` for `fdx` and `fdu`, where the
approximations are the per-component central differences
`(f at +delta minus f at -delta)/(2*delta)` (`np.linalg.norm`, the Frobenius
matrix norm, belongs to numpy, not to this source file, and is abstracted as
the two `norm` parameters); and as a side effect it leaves the adapter `set`
at the last perturbed point — the nominal `xk` with the input `uk` with
`delta` subtracted from its final component — not restored to the nominal
`(xk, uk)`. -/
theorem validate_derivatives_frame {D : Dims} (d : DSystem D)
    (normX : (Fin D.nX → Fin D.nX → ℚ) → ℚ)
    (normU : (Fin D.nX → Fin D.nU → ℚ) → ℚ)
    (xk uk : List ℚ) (k : Nat) (delta : ℚ)
    (hk : k + 1 < d.time.length) (hU : 0 < D.nU) :
    d.validate_derivatives normX normU xk uk k delta =
      .ok (d.setD xk (bump uk (D.nU - 1) (-delta)) k none,
           normX (fun i j => (d.setD xk uk k none).fdx i j -
               centralDiffX d xk uk k delta i j) /
             normX (d.setD xk uk k none).fdx,
           normU (fun i j => (d.setD xk uk k none).fdu i j -
               centralDiffU d xk uk k delta i j) /
             normU (d.setD xk uk k none).fdu) := by
  obtain ⟨m, hm⟩ : ∃ m, D.nU = m + 1 := ⟨D.nU - 1, by omega⟩
  rw [d.setD_eq xk (bump uk (D.nU - 1) (-delta)) k none hk,
    d.setD_eq xk uk k none hk]
  unfold DSystem.validate_derivatives
  split
  next e heq =>
    rw [d.set_eq_ok xk uk k none hk] at heq
    cases heq
  next d1 heq =>
    rw [d.set_eq_ok xk uk k none hk] at heq
    injection heq with h1
    subst h1
    split
    next e heq2 =>
      rw [d.loopX_ok xk uk k delta hk (List.range D.nX)
        (d.mkSet xk uk k none) rfl rfl []] at heq2
      cases heq2
    next dX colsX heq2 =>
      rw [d.loopX_ok xk uk k delta hk (List.range D.nX)
        (d.mkSet xk uk k none) rfl rfl []] at heq2
      injection heq2 with h2
      injection h2 with h2a h2b
      subst h2a
      subst h2b
      have hXfields := foldl_update_fields d
        (fun i1 => d.mkSet (bump xk i1 (-delta)) uk k none)
        (fun _ => ⟨rfl, rfl⟩) (List.range D.nX) (d.mkSet xk uk k none) rfl rfl
      split
      next e heq3 =>
        rw [d.loopU_ok xk uk k delta hk (List.range D.nU) _
          hXfields.1 hXfields.2 []] at heq3
        cases heq3
      next dU colsU heq3 =>
        rw [d.loopU_ok xk uk k delta hk (List.range D.nU) _
          hXfields.1 hXfields.2 []] at heq3
        injection heq3 with h3
        injection h3 with h3a h3b
        subst h3a
        subst h3b
        have hfirst : (List.range D.nU).foldl
            (fun _ i1 => d.mkSet xk (bump uk i1 (-delta)) k none)
            ((List.range D.nX).foldl
              (fun _ i1 => d.mkSet (bump xk i1 (-delta)) uk k none)
              (d.mkSet xk uk k none)) =
            d.mkSet xk (bump uk (D.nU - 1) (-delta)) k none := by
          have hr : List.range D.nU = List.range m ++ [m] := by
            rw [hm, List.range_succ]
          have hm2 : D.nU - 1 = m := by omega
          rw [hr, List.foldl_append, hm2]
          simp only [List.foldl_cons, List.foldl_nil]
        have hfunX : (fun (i j : Fin D.nX) =>
            (d.mkSet xk uk k none).fdx i j -
              ((([] : List (List ℚ)) ++ (List.range D.nX).map (fun i1 =>
                colOfPair (d.mkSet (bump xk i1 delta) uk k none).f
                  (d.mkSet (bump xk i1 (-delta)) uk k none).f delta)).getD
                (j : Nat) []).getD (i : Nat) 0) =
            (fun (i j : Fin D.nX) => (d.mkSet xk uk k none).fdx i j -
              centralDiffX d xk uk k delta i j) := by
          funext i j
          rw [List.nil_append, approx_entry_X d xk uk k delta hk i j]
        have hfunU : (fun (i : Fin D.nX) (j : Fin D.nU) =>
            (d.mkSet xk uk k none).fdu i j -
              ((([] : List (List ℚ)) ++ (List.range D.nU).map (fun i1 =>
                colOfPair (d.mkSet xk (bump uk i1 delta) k none).f
                  (d.mkSet xk (bump uk i1 (-delta)) k none).f delta)).getD
                (j : Nat) []).getD (i : Nat) 0) =
            (fun (i : Fin D.nX) (j : Fin D.nU) =>
              (d.mkSet xk uk k none).fdu i j -
              centralDiffU d xk uk k delta i j) := by
          funext i j
          rw [List.nil_append, approx_entry_U d xk uk k delta hk i j]
        rw [hfirst, hfunX, hfunU]

/-- C10 witness on the demo system with the constant-one norms. -/
theorem validate_derivatives_frame_witness :
    (0 + 1 < demoDSys.time.length ∧ 0 < demoDims.nU) ∧
    demoDSys.validate_derivatives (fun _ => 1) (fun _ => 1) [1, 2, 3, 4] [5] 0
        (1 / 100) =
      .ok (demoDSys.setD [1, 2, 3, 4]
            (bump [5] (demoDims.nU - 1) (-(1 / 100))) 0 none,
           (1 : ℚ) / 1, (1 : ℚ) / 1) :=
  ⟨⟨by decide, by decide⟩,
   validate_derivatives_frame demoDSys (fun _ => 1) (fun _ => 1) [1, 2, 3, 4]
     [5] 0 (1 / 100) (by decide) (by decide)⟩

end Trep
